import Mathlib

/-!
Verification of the phase-classification / signal / risk engine of the
stock-ma30 trading system.

The Python source is embedded shallowly:

* prices, volumes and money amounts are exact rationals (`ℚ`);
* `pandas` series and data-frame columns are Lean lists, with `Option ℚ`
  standing for entries that pandas would represent as `NaN`
  (rolling means before the minimum number of observations);
* Python `int(x)` (truncation toward zero) is `pint`;
* Python float comparisons against `inf`/`nan` produced by a division
  whose denominator is `0` are modelled by an explicit guard on the
  denominator, chosen so that the boolean outcome matches the Python
  outcome (a comparison against `nan` or `inf` is false for the
  thresholds used here);
* configuration values are the defaults of `config/settings.py` and
  `RiskManager.__init__`: `max_loss_percent = 2`, `stop_loss_percent = 8`,
  `single_position_max = 20`; the total capital stays a parameter.

Definitions mirror, function by function, `core/phase_analyzer.py`,
`core/risk_manager.py`, `core/signal_generator.py` and
`models/schemas.py`.
-/

namespace StockMA30

/-- Python `int(x)`: truncation toward zero. -/
def pint (q : ℚ) : ℤ := if 0 ≤ q then ⌊q⌋ else ⌈q⌉

/-- Arithmetic mean of a list, as `pandas`/`numpy` compute it
(`sum / len`; the empty list would be `nan` in Python, here `0/0 = 0`,
and every use site guards non-emptiness). -/
def lmean (l : List ℚ) : ℚ := l.sum / l.length

/-- Population variance (`numpy.std` squared, `ddof = 0`). -/
def lvar (l : List ℚ) : ℚ := ((l.map (fun y => (y - lmean l) ^ 2)).sum) / l.length

/-- `pandas.Series.min` on a non-empty list. -/
def lmin : List ℚ → ℚ
  | [] => 0
  | x :: xs => xs.foldl min x

/-- `pandas.Series.max` on a non-empty list. -/
def lmax : List ℚ → ℚ
  | [] => 0
  | x :: xs => xs.foldl max x

/-- One weekly bar, restricted to the columns the analyzed claims read. -/
structure Bar where
  close : ℚ
  volume : ℚ
  deriving Repr, DecidableEq

/-- `pandas.Series.rolling(window = w, min_periods = minp).mean()` over a
series without missing values: the value at index `i` is the mean of the
last `min (i+1) w` entries ending at `i`, present once that count reaches
`minp`. -/
def rollingMean (w minp : ℕ) (xs : List ℚ) : List (Option ℚ) :=
  (List.range xs.length).map (fun i =>
    let c := min (i + 1) w
    if c < minp then none
    else some ((∑ j ∈ Finset.range c, xs.getD (i + 1 - c + j) 0) / (c : ℚ)))

/-- `PhaseAnalyzer.calculate_ma30`: 30-week rolling mean of the closes,
`min_periods = 20`. -/
def calculate_ma30 (closes : List ℚ) : List (Option ℚ) :=
  rollingMean 30 20 closes

/-- Slope of the ordinary-least-squares line through
`(0, y 0), …, (n-1, y (n-1))`, exactly what `np.polyfit(x, y, 1)[0]`
returns for `x = 0, …, n-1`. -/
def olsSlope (ys : List ℚ) : ℚ :=
  let n := ys.length
  let xbar : ℚ := ((n : ℚ) - 1) / 2
  (∑ i ∈ Finset.range n, ((i : ℚ) - xbar) * ys.getD i 0) /
    (∑ i ∈ Finset.range n, ((i : ℚ) - xbar) ^ 2)

/-- `PhaseAnalyzer.calculate_ma_slope`: regression slope over the last
`periods = 5` entries of the moving-average column after dropping the
undefined ones, normalized by their mean; `0` when fewer than 5 entries
exist or fewer than 2 of the last 5 are defined. -/
def calculate_ma_slope (ma : List (Option ℚ)) : ℚ :=
  if ma.length < 5 then 0
  else
    let recent := (ma.drop (ma.length - 5)).filterMap id
    if recent.length < 2 then 0
    else olsSlope recent / lmean recent

/-- `PhaseAnalyzer.get_ma_direction` with the default
`slope_threshold = 0.02`. -/
def get_ma_direction (slope : ℚ) : String :=
  if slope > 2 / 100 then "up"
  else if slope < -(2 / 100) then "down"
  else "flat"

/-- `core/phase_analyzer.py`'s `ConsolidationRange` dataclass. -/
structure ConsolidationRange where
  start_idx : ℕ
  end_idx : ℕ
  high : ℚ
  low : ℚ
  avg_volume : ℚ
  duration_weeks : ℕ
  deriving Repr, DecidableEq

/-- The window-qualification test of
`PhaseAnalyzer.find_consolidation_ranges`:
`(max close - min close) / mean close < 0.15` and
`np.std(window_ma) / np.mean(window_ma) < 0.02`.
A window whose moving-average column still contains an undefined entry
gives `nan` in Python, failing the comparison, as does a zero mean
(`inf`/`nan`); a negative mean makes the quotient non-positive, hence
below the threshold.  The standard-deviation comparison is stated on the
squared values to stay inside `ℚ`. -/
def consolidationWindowOK (wc : List ℚ) (wm : List (Option ℚ)) : Bool :=
  let priceOK := lmean wc ≠ 0 ∧ (lmax wc - lmin wc) / lmean wc < 15 / 100
  let vals := wm.filterMap id
  let mm := lmean vals
  let maFlat := wm.all Option.isSome ∧
    (mm < 0 ∨ (0 < mm ∧ lvar vals < (2 / 100 * mm) ^ 2))
  decide (priceOK ∧ maFlat)

/-- `PhaseAnalyzer.find_consolidation_ranges` with `min_weeks = 8`:
slides an 8-bar window over the frame and keeps every qualifying window
as a `ConsolidationRange`. -/
def find_consolidation_ranges (closes vols : List ℚ) (ma : List (Option ℚ)) :
    List ConsolidationRange :=
  if closes.length < 8 then []
  else
    (List.range (closes.length - 8 + 1)).filterMap (fun i =>
      let wc := (closes.drop i).take 8
      let wm := (ma.drop i).take 8
      let wv := (vols.drop i).take 8
      if consolidationWindowOK wc wm then
        some ⟨i, i + 8 - 1, lmax wc, lmin wc, lmean wv, 8⟩
      else none)

/-- `PhaseAnalyzer.detect_breakout` with the default
`volume_threshold = 2.0`.  Note the slice `df.iloc[end_idx:]` starts AT
`end_idx`, so `iloc[0]` is the last bar of the consolidation window
itself. -/
def detect_breakout (df : List Bar) (c : ConsolidationRange) : Bool × Bool :=
  if df.length ≤ c.end_idx then (false, false)
  else
    let breakout_data := df.drop c.end_idx
    if breakout_data.length < 2 then (false, false)
    else
      let first := breakout_data.headD ⟨0, 0⟩
      let upward := first.close > c.high * (103 / 100)
      let volume_confirmed := first.volume > c.avg_volume * 2
      (upward, volume_confirmed)

/-- `models/schemas.py`'s `StockPhase` enumeration. -/
inductive StockPhase where
  | UNKNOWN
  | PHASE_1_BOTTOM
  | PHASE_2_RISING
  | PHASE_3_TOP
  | PHASE_4_FALLING
  deriving Repr, DecidableEq

/-- `models/schemas.py`'s `PhaseMetrics` model. -/
structure PhaseMetrics where
  ma30_slope : ℚ
  ma30_direction : String
  price_to_ma_ratio : ℚ
  consolidation_weeks : ℕ
  breakout_confirmed : Bool
  volume_confirmation : Bool
  deriving Repr, DecidableEq

/-- `PhaseAnalyzer._empty_metrics`. -/
def empty_metrics : PhaseMetrics :=
  { ma30_slope := 0
    ma30_direction := "flat"
    price_to_ma_ratio := 1
    consolidation_weeks := 0
    breakout_confirmed := false
    volume_confirmation := false }

/-- `PhaseAnalyzer._determine_phase`.  `closes` is the close column of
the frame the analyzer works on (at least 30 bars at every call site).
The source also computes a `price_trend` variable from the last 20
closes that no later statement reads; it is omitted here.  In the source
the rising branch tests whether a consolidation ended within the last 5
bars but returns `PHASE_2_RISING` in both arms, so the test does not
influence the result. -/
def determine_phase (closes : List ℚ) (ma_direction : String)
    (price_to_ma_ratio : ℚ) : StockPhase :=
  let last := closes.getD (closes.length - 1) 0
  let tail100 := closes.drop (closes.length - 100)
  if ma_direction = "up" ∧ price_to_ma_ratio > 1 then .PHASE_2_RISING
  else if ma_direction = "down" ∧ price_to_ma_ratio < 1 then .PHASE_4_FALLING
  else if ma_direction = "flat" ∧ price_to_ma_ratio ≤ 105 / 100 ∧
      last < lmin tail100 * (12 / 10) then .PHASE_1_BOTTOM
  else if ma_direction = "flat" ∧ price_to_ma_ratio ≥ 95 / 100 ∧
      last > lmax tail100 * (8 / 10) then .PHASE_3_TOP
  else if ma_direction = "up" then .PHASE_2_RISING
  else if ma_direction = "down" then .PHASE_4_FALLING
  else if last < (lmax closes + lmin closes) / 2 then .PHASE_1_BOTTOM
  else .PHASE_3_TOP

/-- `PhaseAnalyzer.analyze_phase` on a frame of bars (the analyzer works
on a copy of the caller's frame; the copy step is modelled separately
for the frame-effect claim).  Defaults: `ma_period = 30`,
`volume_threshold = 2.0`, volume moving average over 10 bars with the
pandas default `min_periods = 10`. -/
def analyze_phase (df : List Bar) : StockPhase × PhaseMetrics :=
  if df.length < 30 then (.UNKNOWN, empty_metrics)
  else
    let closes := df.map Bar.close
    let vols := df.map Bar.volume
    let ma := calculate_ma30 closes
    let volume_ma := rollingMean 10 10 vols
    let current_price := closes.getD (closes.length - 1) 0
    let current_ma := (ma.getD (ma.length - 1) none)
    let current_volume := vols.getD (vols.length - 1) 0
    let avg_volume := (volume_ma.getD (volume_ma.length - 1) none)
    let ma_slope := calculate_ma_slope ma
    let ma_direction := get_ma_direction ma_slope
    let price_to_ma_ratio : ℚ :=
      match current_ma with
      | some m => if m > 0 then current_price / m else 1
      | none => 1
    let volume_ratio : ℚ :=
      match avg_volume with
      | some a => if a > 0 then current_volume / a else 1
      | none => 1
    let ranges := find_consolidation_ranges closes vols ma
    let latest_consolidation := ranges.getLast?
    let phase := determine_phase closes ma_direction price_to_ma_ratio
    let breakout_confirmed :=
      match latest_consolidation with
      | some c => (detect_breakout df c).1 && (detect_breakout df c).2
      | none => false
    let metrics : PhaseMetrics :=
      { ma30_slope := ma_slope
        ma30_direction := ma_direction
        price_to_ma_ratio := price_to_ma_ratio
        consolidation_weeks :=
          match latest_consolidation with
          | some c => c.duration_weeks
          | none => 0
        breakout_confirmed := breakout_confirmed
        volume_confirmation := volume_ratio > 2 }
    (phase, metrics)

/-- `models/schemas.py`'s `Position` model.  Its declared fields are
exactly these; in particular it declares no add-on counter
(`entry_date` is kept as an abstract timestamp). -/
structure Position where
  stock_code : String
  stock_name : String
  entry_price : ℚ
  entry_date : ℕ
  shares : ℤ
  current_price : ℚ
  stop_loss : ℚ
  take_profit : Option ℚ := none
  deriving Repr, DecidableEq

/-- `core/risk_manager.py`'s `PositionSizing` dataclass. -/
structure PositionSizing where
  shares : ℤ
  position_value : ℚ
  risk_amount : ℚ
  risk_percent : ℚ
  stop_loss_price : ℚ
  deriving Repr, DecidableEq

/-- The per-share risk of `RiskManager.calculate_position_size`
(lines 66-69): `entry - stop`, replaced by the default `8%` of the entry
price when it is not positive. -/
def cps_risk (entry_price stop_loss_price : ℚ) : ℚ :=
  if entry_price - stop_loss_price ≤ 0 then entry_price * (8 / 100)
  else entry_price - stop_loss_price

/-- The share count of `RiskManager.calculate_position_size` before the
single-position cap is applied (lines 71-80, `max_loss_percent = 2`):
floor to a multiple of the 100-share lot, then raise to the 100-share
minimum. -/
def cps_shares_preclamp (total_capital confidence risk_per_share : ℚ) : ℤ :=
  let max_risk_amount := total_capital * (2 / 100)
  let adjusted_risk := max_risk_amount * confidence
  let shares0 : ℤ := pint (adjusted_risk / risk_per_share / 100) * 100
  if shares0 < 100 then 100 else shares0

/-- The body of `RiskManager.calculate_position_size` after the
per-share risk has been fixed (lines 71-101), with the configured
`max_loss_percent = 2` and `single_position_max = 20`;
`stop_field` is the value the source places unchanged into the
`stop_loss_price` field of the result. -/
def cps_with_risk (total_capital entry_price : ℚ) (confidence : ℚ)
    (risk_per_share stop_field : ℚ) : PositionSizing :=
  let shares1 : ℤ := cps_shares_preclamp total_capital confidence risk_per_share
  let position_value1 : ℚ := (shares1 : ℚ) * entry_price
  let max_position_value := total_capital * (20 / 100)
  let shares : ℤ :=
    if position_value1 > max_position_value then
      pint (max_position_value / entry_price / 100) * 100
    else shares1
  let position_value : ℚ := (shares : ℚ) * entry_price
  let actual_risk : ℚ := (shares : ℚ) * risk_per_share
  { shares := shares
    position_value := position_value
    risk_amount := actual_risk
    risk_percent := actual_risk / total_capital * 100
    stop_loss_price := stop_field }

/-- `RiskManager.calculate_position_size` (default `confidence = 1`). -/
def calculate_position_size (total_capital entry_price stop_loss_price : ℚ)
    (confidence : ℚ) : PositionSizing :=
  cps_with_risk total_capital entry_price confidence
    (cps_risk entry_price stop_loss_price) stop_loss_price

/-- `RiskManager.update_stop_loss`.  The Python guard
`if new_support_level and new_support_level > position.stop_loss` treats
`None` and `0.0` as falsy. -/
def update_stop_loss (position : Position) (current_price : ℚ)
    (new_support_level : Option ℚ) : ℚ :=
  let trailing : ℚ :=
    let profit_percent :=
      (current_price - position.entry_price) / position.entry_price
    if profit_percent > 1 / 10 then
      max (position.entry_price + (current_price - position.entry_price) * (1 / 2))
        position.stop_loss
    else position.stop_loss
  match new_support_level with
  | some s =>
      if s ≠ 0 ∧ s > position.stop_loss then max (s * (98 / 100)) position.stop_loss
      else trailing
  | none => trailing

/-- The add-on counter `RiskManager.calculate_pyramid_add_position`
reads via `getattr(position, 'add_count', 0)`: the pydantic `Position`
model declares no `add_count` field and no code in the repository ever
assigns one, so the lookup always takes the default `0`. -/
def pos_add_count (_position : Position) : ℕ := 0

/-- `RiskManager.calculate_pyramid_add_position`. -/
def calculate_pyramid_add_position (total_capital : ℚ) (position : Position)
    (current_price add_price : ℚ) : Option PositionSizing :=
  if current_price ≤ position.entry_price then none
  else
    let add_ratio : ℚ := 1 / 2 ^ (pos_add_count position)
    let original_sizing :=
      calculate_position_size total_capital position.entry_price position.stop_loss 1
    let add_shares : ℤ := pint ((original_sizing.shares : ℚ) * add_ratio / 100) * 100
    if add_shares < 100 then none
    else
      let new_stop_loss := max (add_price * (95 / 100)) position.stop_loss
      let position_value : ℚ := (add_shares : ℚ) * add_price
      let risk_amount : ℚ := (add_shares : ℚ) * (add_price - new_stop_loss)
      some
        { shares := add_shares
          position_value := position_value
          risk_amount := risk_amount
          risk_percent := risk_amount / total_capital * 100
          stop_loss_price := new_stop_loss }

/-- `models/schemas.py`'s `SignalType` enumeration. -/
inductive SignalType where
  | BUY
  | SELL
  | HOLD
  | WATCH
  | ADD_POSITION
  deriving Repr, DecidableEq

/-- `models/schemas.py`'s `TradeSignal` model (timestamp omitted). -/
structure TradeSignal where
  stock_code : String
  stock_name : String
  signal_type : SignalType
  phase : StockPhase
  current_price : ℚ
  ma30_week : ℚ
  volume_ratio : ℚ
  index_trend : String
  reason : String
  stop_loss : Option ℚ := none
  take_profit : Option ℚ := none
  position_size : Option ℤ := none
  deriving Repr, DecidableEq

/-- `models/schemas.py`'s `MarketContext` model. -/
structure MarketContext where
  index_code : String
  index_name : String
  index_phase : StockPhase
  index_ma30 : ℚ
  market_sentiment : String
  deriving Repr, DecidableEq

/-- The caution note `SignalGenerator.filter_signals_by_market` appends
to a BUY signal's reason when the index is in phase 1. -/
def cautionNote : String := "【注意】大盘处于第一阶段，建议小仓位试探。"

/-- The per-signal decision inside the loop of
`SignalGenerator.filter_signals_by_market`: drop a BUY signal when the
index is in phase 4, annotate a BUY signal when the index is in
phase 1, keep everything else untouched. -/
def filter_one (index_phase : StockPhase) (signal : TradeSignal) :
    Option TradeSignal :=
  if index_phase = .PHASE_4_FALLING ∧ signal.signal_type = .BUY then none
  else if index_phase = .PHASE_1_BOTTOM ∧ signal.signal_type = .BUY then
    some { signal with reason := signal.reason ++ cautionNote }
  else some signal

/-- `SignalGenerator.filter_signals_by_market`: the source iterates over
the signals in order, skipping (`continue`) or appending each one, which
is exactly a `filterMap` of the per-signal decision. -/
def filter_signals_by_market (signals : List TradeSignal)
    (market_context : MarketContext) : List TradeSignal :=
  signals.filterMap (filter_one market_context.index_phase)

/-- A pandas data frame as the callers of `analyze_phase` hold it: the
bar columns plus any extra derived columns, keyed by name. -/
structure Frame where
  bars : List Bar
  extra_cols : List (String × List (Option ℚ))
  deriving Repr, DecidableEq

/-- `df[name] = vals` on a frame: adds or replaces a derived column in
place (`none` entries are pandas `NaN`). -/
def setCol (f : Frame) (name : String) (vals : List (Option ℚ)) : Frame :=
  { f with extra_cols := (name, vals) :: f.extra_cols.filter (fun c => c.1 ≠ name) }

/-- The heap of frame objects: Python variables hold references
(addresses) into it, and mutation happens at an address. -/
def Heap := ℕ → Frame

/-- `PhaseAnalyzer.analyze_phase` as the caller observes it through the
object heap: the caller passes the address `r0` of its frame, the
callee executes `df = df.copy()` — allocating the copy at a fresh
address `r1` — and then mutates only the copy, writing the `ma30` and
`volume_ma` columns into it (lines 210-213) before computing the
result.  When the series is too short the function returns before
copying.  Returns the final heap together with the result. -/
def analyze_phase_call (h : Heap) (r0 r1 : ℕ) : Heap × (StockPhase × PhaseMetrics) :=
  let df := h r0
  if df.bars.length < 30 then (h, (.UNKNOWN, empty_metrics))
  else
    let copy := df
    let closes := copy.bars.map Bar.close
    let vols := copy.bars.map Bar.volume
    let copy1 := setCol copy "ma30" (calculate_ma30 closes)
    let copy2 := setCol copy1 "volume_ma" (rollingMean 10 10 vols)
    let h1 : Heap := fun a => if a = r1 then copy2 else h a
    (h1, analyze_phase (copy2.bars))

/-- One call of the risk engine that can move a position's stop:
either `update_stop_loss` or `calculate_pyramid_add_position`, with the
price arguments the caller supplies. -/
inductive RiskCall where
  | update (current_price : ℚ) (new_support_level : Option ℚ)
  | pyramid (current_price add_price : ℚ)
  deriving Repr, DecidableEq

/-- The stop a position carries after one risk-engine call, when the
caller feeds the returned stop back into the position (a pyramid call
that returns no sizing leaves the stop unchanged). -/
def stop_after (total_capital : ℚ) (p : Position) : RiskCall → ℚ
  | .update cp ns => update_stop_loss p cp ns
  | .pyramid cp ap =>
      match calculate_pyramid_add_position total_capital p cp ap with
      | some sizing => sizing.stop_loss_price
      | none => p.stop_loss

/-- The position after one risk-engine call with the stop fed back. -/
def apply_call (total_capital : ℚ) (p : Position) (c : RiskCall) : Position :=
  { p with stop_loss := stop_after total_capital p c }

/-- The successive stops of a position across a sequence of
risk-engine calls, starting with its current stop. -/
def stops_along (total_capital : ℚ) (p : Position) (calls : List RiskCall) : List ℚ :=
  (calls.scanl (apply_call total_capital) p).map Position.stop_loss

/-! Concrete inputs used by witnesses and counterexamples. -/

/-- A ten-bar series whose first eight bars trade flat at 10 on volume
100 and whose ninth bar jumps to 20 on volume 1000. -/
def df10 : List Bar :=
  [⟨10, 100⟩, ⟨10, 100⟩, ⟨10, 100⟩, ⟨10, 100⟩, ⟨10, 100⟩, ⟨10, 100⟩,
   ⟨10, 100⟩, ⟨10, 100⟩, ⟨20, 1000⟩, ⟨21, 1000⟩]

/-- The consolidation range covering the first eight bars of `df10`:
`high = low = 10`, average volume 100, exactly as
`find_consolidation_ranges` describes that window. -/
def rng10 : ConsolidationRange := ⟨0, 7, 10, 10, 100, 8⟩

/-- A winning position: entered at 100 with stop 92, now at 110. -/
def cPos : Position :=
  { stock_code := "600489", stock_name := "sample", entry_price := 100,
    entry_date := 0, shares := 2000, current_price := 110, stop_loss := 92 }

/-- A strictly increasing positive close series of 34 bars whose rise is
far too small relative to its level to clear the slope threshold. -/
def incCloses : List ℚ :=
  (List.range 34).map (fun (i : ℕ) => (1000000 : ℚ) + (i : ℚ))

/-- Thirty constant bars. -/
def cBars : List Bar := List.replicate 30 ⟨10, 100⟩

/-- A concrete market context in a given index phase. -/
def cCtx (phase : StockPhase) : MarketContext :=
  { index_code := "000001", index_name := "SSE", index_phase := phase,
    index_ma30 := 3000, market_sentiment := "neutral" }

/-- A concrete BUY signal and a concrete SELL signal. -/
def cSig (k : SignalType) : TradeSignal :=
  { stock_code := "600489", stock_name := "sample", signal_type := k,
    phase := .PHASE_2_RISING, current_price := 100, ma30_week := 90,
    volume_ratio := 3, index_trend := "up", reason := "r" }

/-- A concrete heap whose every address holds the 30-bar frame. -/
def cHeap : Heap := fun _ => ⟨cBars, []⟩

/-- The mean of the full 30-bar window ending at index
`length - 5 + k` of a series of at least 34 closes: the value the
moving average takes at the k-th of its last five positions.  A derived
quantity used to state the slope lemmas. -/
def wavg (closes : List ℚ) (k : ℕ) : ℚ :=
  (∑ j ∈ Finset.range 30, closes.getD (closes.length - 34 + k + j) 0) / 30

/-! ## Theorems -/

/-! ### Helper lemmas -/

theorem pint_nonneg {q : ℚ} (h : 0 ≤ q) : 0 ≤ pint q := by
  unfold pint
  rw [if_pos h]
  exact Int.floor_nonneg.mpr h

theorem pint_mul_hundred_dvd (q : ℚ) : (100 : ℤ) ∣ pint q * 100 :=
  ⟨pint q, mul_comm _ _⟩

theorem cps_shares_preclamp_ge (total_capital confidence risk_per_share : ℚ) :
    100 ≤ cps_shares_preclamp total_capital confidence risk_per_share := by
  simp only [cps_shares_preclamp]
  split
  · exact le_refl 100
  · omega

theorem cps_shares_preclamp_dvd (total_capital confidence risk_per_share : ℚ) :
    (100 : ℤ) ∣ cps_shares_preclamp total_capital confidence risk_per_share := by
  simp only [cps_shares_preclamp]
  split
  · exact dvd_refl 100
  · exact pint_mul_hundred_dvd _

/-- Shares field of the sizing, by cases on whether the single-position
cap clamps. -/
theorem cps_with_risk_shares (total_capital entry_price confidence
    risk_per_share stop_field : ℚ) :
    (cps_with_risk total_capital entry_price confidence risk_per_share
        stop_field).shares =
      if ((cps_shares_preclamp total_capital confidence risk_per_share : ℚ) *
            entry_price > total_capital * (20 / 100)) then
        pint (total_capital * (20 / 100) / entry_price / 100) * 100
      else cps_shares_preclamp total_capital confidence risk_per_share := rfl

/-! ### C4 -/

/-- C4 (amended): on a series of fewer than 30 bars `analyze_phase`
returns phase UNKNOWN together with the fixed empty metrics — slope 0,
direction `flat`, `price_to_ma_ratio` 1 (not 0), 0 consolidation weeks,
both booleans false. -/
theorem c4_short_series_unknown (df : List Bar) (h : df.length < 30) :
    analyze_phase df =
      (.UNKNOWN,
        { ma30_slope := 0
          ma30_direction := "flat"
          price_to_ma_ratio := 1
          consolidation_weeks := 0
          breakout_confirmed := false
          volume_confirmation := false }) := by
  unfold analyze_phase
  rw [if_pos h]
  rfl

/-- C4 counterexample: on the empty series the phase is UNKNOWN but the
returned `price_to_ma_ratio` is not 0, so the metrics are not all-zero
as claimed. -/
theorem c4_counterexample :
    ([] : List Bar).length < 30 ∧ (analyze_phase []).1 = .UNKNOWN ∧
      ¬((analyze_phase []).2.price_to_ma_ratio = 0) := by
  norm_num [analyze_phase, empty_metrics]

theorem c4_witness :
    ([] : List Bar).length < 30 ∧
      analyze_phase [] =
        (.UNKNOWN,
          { ma30_slope := 0
            ma30_direction := "flat"
            price_to_ma_ratio := 1
            consolidation_weeks := 0
            breakout_confirmed := false
            volume_confirmation := false }) :=
  ⟨by norm_num, c4_short_series_unknown [] (by norm_num)⟩

/-! ### C2 -/

/-- The bar `detect_breakout` examines is the one at `end_idx` itself,
which belongs to the consolidation window; whenever that bar's close is
within the range (at most `high`, which is how
`find_consolidation_ranges` computes `high`), an upward breakout can
never be reported. -/
theorem detect_breakout_upward_impossible (df : List Bar)
    (c : ConsolidationRange) (hhigh : 0 ≤ c.high)
    (hc : (df.getD c.end_idx ⟨0, 0⟩).close ≤ c.high) :
    (detect_breakout df c).1 = false := by
  have hhead : (df.drop c.end_idx).headD ⟨0, 0⟩ = df.getD c.end_idx ⟨0, 0⟩ := by
    rw [List.headD_eq_head?, List.head?_drop, List.getD_eq_getElem?_getD]
  simp only [detect_breakout]
  split
  · rfl
  · split
    · rfl
    · simp only [hhead, decide_eq_false_iff_not, not_lt]
      nlinarith

/-- C2: the code examines the last bar of the consolidation range, not
the first bar strictly after it.  On `df10` with range `rng10` the bar
strictly after the range closes above `high × 1.03` on more than twice
the range's average volume, yet `detect_breakout` reports
`(false, false)`. -/
theorem c2_breakout_wrong_bar :
    detect_breakout df10 rng10 = (false, false) ∧
      rng10.high * (103 / 100) < (df10.getD (rng10.end_idx + 1) ⟨0, 0⟩).close ∧
      rng10.avg_volume * 2 < (df10.getD (rng10.end_idx + 1) ⟨0, 0⟩).volume ∧
      rng10.end_idx + 2 ≤ df10.length := by
  norm_num [detect_breakout, df10, rng10]

/-! ### C3 -/

/-- C3 (amended): with positive capital and entry price the returned
share count is a non-negative multiple of 100; it is at least 100
whenever the per-share risk is positive AND the pre-clamp position
value fits under the 20% single-position cap — the clamp recomputation
does not re-apply the 100-share minimum and can push the count to 0. -/
theorem c3_lot_size (total_capital entry_price stop_loss_price confidence : ℚ)
    (hcap : 0 < total_capital) (hentry : 0 < entry_price) :
    (0 ≤ (calculate_position_size total_capital entry_price stop_loss_price
          confidence).shares ∧
      (100 : ℤ) ∣ (calculate_position_size total_capital entry_price
          stop_loss_price confidence).shares) ∧
    (0 < entry_price - stop_loss_price →
      (cps_shares_preclamp total_capital confidence
            (cps_risk entry_price stop_loss_price) : ℚ) * entry_price ≤
          total_capital * (20 / 100) →
      100 ≤ (calculate_position_size total_capital entry_price stop_loss_price
          confidence).shares) := by
  unfold calculate_position_size
  rw [cps_with_risk_shares]
  constructor
  · split
    · refine ⟨mul_nonneg (pint_nonneg ?_) (by norm_num), pint_mul_hundred_dvd _⟩
      positivity
    · exact ⟨le_trans (by norm_num) (cps_shares_preclamp_ge _ _ _),
        cps_shares_preclamp_dvd _ _ _⟩
  · intro _ hfit
    rw [if_neg (not_lt.mpr hfit)]
    exact cps_shares_preclamp_ge _ _ _

theorem c3_witness :
    (0 : ℚ) < 1000000 ∧ (0 : ℚ) < 100 ∧
      (0 ≤ (calculate_position_size 1000000 100 92 1).shares ∧
        (100 : ℤ) ∣ (calculate_position_size 1000000 100 92 1).shares) ∧
      (0 < (100 : ℚ) - 92 →
        (cps_shares_preclamp 1000000 1 (cps_risk 100 92) : ℚ) * 100 ≤
            1000000 * (20 / 100) →
        100 ≤ (calculate_position_size 1000000 100 92 1).shares) :=
  ⟨by norm_num, by norm_num, c3_lot_size 1000000 100 92 1 (by norm_num) (by norm_num)⟩

/-- C3 counterexample: entry 3000, stop 2999, capital 1,000,000 — the
per-share risk is positive and the capital positive, yet the
single-position clamp recomputes the share count to 0, below the
claimed 100-share minimum. -/
theorem c3_counterexample :
    (0 : ℚ) < 1000000 ∧ (0 : ℚ) < 3000 - 2999 ∧
      (calculate_position_size 1000000 3000 2999 1).shares = 0 := by
  norm_num [calculate_position_size, cps_with_risk, cps_shares_preclamp,
    cps_risk, pint]

/-! ### C10 -/

/-- C10: when the stop is at or above the entry (and the entry is
positive), `calculate_position_size` still returns a sizing — computed
from the substituted default per-share risk of 8% of the entry — and
its `stop_loss_price` field is the original invalid stop, unchanged. -/
theorem c10_invalid_stop (total_capital entry_price stop_loss_price
      confidence : ℚ) (_hentry : 0 < entry_price)
    (hstop : entry_price ≤ stop_loss_price) :
    calculate_position_size total_capital entry_price stop_loss_price confidence =
        cps_with_risk total_capital entry_price confidence
          (entry_price * (8 / 100)) stop_loss_price ∧
      (calculate_position_size total_capital entry_price stop_loss_price
          confidence).stop_loss_price = stop_loss_price ∧
      entry_price ≤ (calculate_position_size total_capital entry_price
          stop_loss_price confidence).stop_loss_price := by
  have hr : cps_risk entry_price stop_loss_price = entry_price * (8 / 100) := by
    unfold cps_risk
    rw [if_pos (by linarith)]
  refine ⟨by rw [calculate_position_size, hr], rfl, ?_⟩
  exact le_trans hstop (le_of_eq rfl)

theorem c10_witness :
    (0 : ℚ) < 100 ∧ (100 : ℚ) ≤ 150 ∧
      (calculate_position_size 1000000 100 150 1 =
          cps_with_risk 1000000 100 1 (100 * (8 / 100)) 150 ∧
        (calculate_position_size 1000000 100 150 1).stop_loss_price = 150 ∧
        (100 : ℚ) ≤ (calculate_position_size 1000000 100 150 1).stop_loss_price) :=
  ⟨by norm_num, by norm_num,
    c10_invalid_stop 1000000 100 150 1 (by norm_num) (by norm_num)⟩

/-! ### C5 -/

/-- C5: the add-on counter the pyramid sizing reads is always 0 —
`Position` declares no such field and nothing ever sets one — so the
add ratio is 1/2^0 = 1 on every call: three successive calls on the
same winning position (entry 100, stop 92, capital 1,000,000) each
return 2000 added shares instead of the documented 2000/1000/500
geometric decay. -/
theorem c5_pyramid_no_decay :
    pos_add_count cPos = 0 ∧
      (1 : ℚ) / 2 ^ (pos_add_count cPos) = 1 ∧
      (calculate_pyramid_add_position 1000000 cPos 110 110).map
          PositionSizing.shares = some 2000 ∧
      (calculate_pyramid_add_position 1000000 cPos 120 120).map
          PositionSizing.shares = some 2000 ∧
      (calculate_pyramid_add_position 1000000 cPos 130 130).map
          PositionSizing.shares = some 2000 ∧
      ¬((calculate_pyramid_add_position 1000000 cPos 120 120).map
          PositionSizing.shares = some 1000) := by
  norm_num [calculate_pyramid_add_position, calculate_position_size,
    cps_with_risk, cps_shares_preclamp, cps_risk, pint, pos_add_count, cPos]

/-! ### C1 -/

theorem update_stop_loss_ge (p : Position) (current_price : ℚ)
    (new_support_level : Option ℚ) :
    p.stop_loss ≤ update_stop_loss p current_price new_support_level := by
  rcases new_support_level with _ | s <;>
    simp only [update_stop_loss] <;> split_ifs <;>
    first
      | exact le_max_right _ _
      | exact le_refl _

theorem pyramid_stop_ge (total_capital : ℚ) (p : Position)
    (current_price add_price : ℚ) (s : PositionSizing)
    (h : calculate_pyramid_add_position total_capital p current_price add_price =
      some s) : p.stop_loss ≤ s.stop_loss_price := by
  simp only [calculate_pyramid_add_position] at h
  split at h
  · exact absurd h (by simp)
  · split at h
    · exact absurd h (by simp)
    · rw [Option.some.injEq] at h
      rw [← h]
      exact le_max_right _ _

theorem stop_after_ge (total_capital : ℚ) (p : Position) (c : RiskCall) :
    p.stop_loss ≤ (apply_call total_capital p c).stop_loss := by
  rcases c with ⟨cp, ns⟩ | ⟨cp, ap⟩
  · exact update_stop_loss_ge p cp ns
  · simp only [apply_call, stop_after]
    rcases h : calculate_pyramid_add_position total_capital p cp ap with _ | s
    · exact le_refl _
    · exact pyramid_stop_ge total_capital p cp ap s h

theorem stops_along_chain (total_capital : ℚ) (p : Position)
    (calls : List RiskCall) :
    List.Chain' (· ≤ ·) (stops_along total_capital p calls) := by
  induction calls generalizing p with
  | nil => simp [stops_along]
  | cons c cs ih =>
      have htail := ih (apply_call total_capital p c)
      unfold stops_along at htail ⊢
      rw [List.scanl_cons, List.singleton_append, List.map_cons]
      refine List.chain'_cons'.mpr ⟨?_, htail⟩
      intro b hb
      have hhd : (List.map Position.stop_loss
          (List.scanl (apply_call total_capital) (apply_call total_capital p c)
            cs)).head? = some (apply_call total_capital p c).stop_loss := by
        cases cs <;> rfl
      rw [hhd, Option.mem_def, Option.some.injEq] at hb
      rw [← hb]
      exact stop_after_ge total_capital p c

/-- C1: stop-loss monotonicity.  `update_stop_loss` never returns less
than the position's current stop; whenever the pyramid sizing returns a
result its unified stop is at least the position's current stop; and
along any sequence of such calls with each returned stop fed back into
the position, the stops are non-decreasing. -/
theorem c1_stop_monotonic (total_capital : ℚ) (p : Position)
    (cp1 cp2 ap : ℚ) (ns : Option ℚ) (s : PositionSizing)
    (calls : List RiskCall) (_hentry : 0 < p.entry_price) :
    p.stop_loss ≤ update_stop_loss p cp1 ns ∧
      (calculate_pyramid_add_position total_capital p cp2 ap = some s →
        p.stop_loss ≤ s.stop_loss_price) ∧
      List.Chain' (· ≤ ·) (stops_along total_capital p calls) :=
  ⟨update_stop_loss_ge p cp1 ns, pyramid_stop_ge total_capital p cp2 ap s,
    stops_along_chain total_capital p calls⟩

theorem c1_witness :
    (0 : ℚ) < cPos.entry_price ∧
      (cPos.stop_loss ≤ update_stop_loss cPos 110 (some 105) ∧
        (calculate_pyramid_add_position 1000000 cPos 110 110 =
            some ⟨2000, 220000, 11000, 11 / 10, 209 / 2⟩ →
          cPos.stop_loss ≤
            (⟨2000, 220000, 11000, 11 / 10, 209 / 2⟩ :
              PositionSizing).stop_loss_price) ∧
        List.Chain' (· ≤ ·) (stops_along 1000000 cPos
          [.update 110 (some 105), .pyramid 120 120])) :=
  ⟨by norm_num [cPos],
    c1_stop_monotonic 1000000 cPos 110 110 110 (some 105)
      ⟨2000, 220000, 11000, 11 / 10, 209 / 2⟩
      [.update 110 (some 105), .pyramid 120 120] (by norm_num [cPos])⟩

/-! ### C8 -/

/-- C8: when the index phase is FALLING the market filter drops exactly
the BUY signals and keeps every other signal unchanged and in order;
when the index phase is BOTTOM every signal is kept and exactly the BUY
signals get the caution note appended to their reason; and in general
the filter is a per-signal map depending only on the signal and the
index phase, so it is stateless and order-independent across signals. -/
theorem c8_market_filter (signals : List TradeSignal) (ctx : MarketContext) :
    (ctx.index_phase = .PHASE_4_FALLING →
      filter_signals_by_market signals ctx =
        signals.filter (fun s => decide (¬(s.signal_type = .BUY)))) ∧
    (ctx.index_phase = .PHASE_1_BOTTOM →
      filter_signals_by_market signals ctx =
        signals.map (fun s =>
          if s.signal_type = .BUY then
            { s with reason := s.reason ++ cautionNote }
          else s)) ∧
    filter_signals_by_market signals ctx =
      signals.filterMap (filter_one ctx.index_phase) := by
  refine ⟨?_, ?_, rfl⟩
  · intro h4
    induction signals with
    | nil => rfl
    | cons s ss ih =>
        simp only [filter_signals_by_market, List.filterMap_cons,
          List.filter_cons] at ih ⊢
        rw [h4] at ih
        by_cases hb : s.signal_type = SignalType.BUY
        · simp [filter_one, h4, hb, ih]
        · simp [filter_one, h4, hb, ih]
  · intro h1
    induction signals with
    | nil => rfl
    | cons s ss ih =>
        simp only [filter_signals_by_market, List.filterMap_cons,
          List.map_cons] at ih ⊢
        rw [h1] at ih
        by_cases hb : s.signal_type = SignalType.BUY
        · simp [filter_one, h1, hb, ih]
        · simp [filter_one, h1, hb, ih]

theorem c8_witness :
    ((cCtx .PHASE_4_FALLING).index_phase = .PHASE_4_FALLING →
      filter_signals_by_market [cSig .BUY, cSig .SELL] (cCtx .PHASE_4_FALLING) =
        [cSig .BUY, cSig .SELL].filter
          (fun s => decide (¬(s.signal_type = .BUY)))) ∧
    ((cCtx .PHASE_4_FALLING).index_phase = .PHASE_1_BOTTOM →
      filter_signals_by_market [cSig .BUY, cSig .SELL] (cCtx .PHASE_4_FALLING) =
        [cSig .BUY, cSig .SELL].map (fun s =>
          if s.signal_type = .BUY then
            { s with reason := s.reason ++ cautionNote }
          else s)) ∧
    filter_signals_by_market [cSig .BUY, cSig .SELL] (cCtx .PHASE_4_FALLING) =
      [cSig .BUY, cSig .SELL].filterMap
        (filter_one (cCtx .PHASE_4_FALLING).index_phase) :=
  c8_market_filter [cSig .BUY, cSig .SELL] (cCtx .PHASE_4_FALLING)

/-! ### C9 -/

/-- C9: `analyze_phase` never mutates the caller's frame.  Through the
object heap, the call leaves the frame at the caller's address exactly
as it was (bars and derived columns alike), its result coincides with
the pure function of the caller's bars, and the `ma30`/`volume_ma`
columns appear only on the freshly allocated internal copy. -/
theorem c9_no_mutation (h : Heap) (r0 r1 : ℕ) (hne : r1 ≠ r0) :
    (analyze_phase_call h r0 r1).1 r0 = h r0 ∧
      (analyze_phase_call h r0 r1).2 = analyze_phase (h r0).bars ∧
      (30 ≤ (h r0).bars.length →
        "ma30" ∈ (((analyze_phase_call h r0 r1).1 r1).extra_cols.map Prod.fst) ∧
        "volume_ma" ∈
          (((analyze_phase_call h r0 r1).1 r1).extra_cols.map Prod.fst)) := by
  simp only [analyze_phase_call]
  split
  · rename_i hlen
    refine ⟨rfl, ?_, fun h30 => absurd h30 (by omega)⟩
    rw [analyze_phase, if_pos hlen]
  · rename_i hlen
    refine ⟨?_, rfl, fun _ => ?_⟩
    · have : ¬(r0 = r1) := fun he => hne he.symm
      simp [this]
    · constructor <;> simp [setCol]

theorem c9_witness :
    (analyze_phase_call cHeap 0 1).1 0 = cHeap 0 ∧
      (analyze_phase_call cHeap 0 1).2 = analyze_phase (cHeap 0).bars ∧
      (30 ≤ (cHeap 0).bars.length →
        "ma30" ∈ (((analyze_phase_call cHeap 0 1).1 1).extra_cols.map Prod.fst) ∧
        "volume_ma" ∈
          (((analyze_phase_call cHeap 0 1).1 1).extra_cols.map Prod.fst)) :=
  c9_no_mutation cHeap 0 1 (by decide)

/-! ### C7 -/

theorem determine_phase_cases (closes : List ℚ) (d : String) (r : ℚ) :
    determine_phase closes d r = .PHASE_1_BOTTOM ∨
      determine_phase closes d r = .PHASE_2_RISING ∨
      determine_phase closes d r = .PHASE_3_TOP ∨
      determine_phase closes d r = .PHASE_4_FALLING := by
  simp only [determine_phase]
  split_ifs <;> simp

/-- C7: on any series of at least 30 bars `analyze_phase` is total and
returns one of the four non-UNKNOWN phases — in particular always
exactly one member of the five-valued phase enumeration, never an
undefined value. -/
theorem c7_phase_totality (df : List Bar) (h : 30 ≤ df.length) :
    (analyze_phase df).1 = .PHASE_1_BOTTOM ∨
      (analyze_phase df).1 = .PHASE_2_RISING ∨
      (analyze_phase df).1 = .PHASE_3_TOP ∨
      (analyze_phase df).1 = .PHASE_4_FALLING := by
  rw [analyze_phase, if_neg (by omega)]
  exact determine_phase_cases _ _ _

theorem c7_witness :
    30 ≤ cBars.length ∧
      ((analyze_phase cBars).1 = .PHASE_1_BOTTOM ∨
        (analyze_phase cBars).1 = .PHASE_2_RISING ∨
        (analyze_phase cBars).1 = .PHASE_3_TOP ∨
        (analyze_phase cBars).1 = .PHASE_4_FALLING) :=
  ⟨by simp [cBars], c7_phase_totality cBars (by simp [cBars])⟩

/-! ### C6 -/

theorem ma30_length (closes : List ℚ) :
    (calculate_ma30 closes).length = closes.length := by
  simp [calculate_ma30, rollingMean]

theorem ma30_getElem_full (closes : List ℚ) (i : ℕ) (h29 : 29 ≤ i)
    (h : i < (calculate_ma30 closes).length) :
    (calculate_ma30 closes)[i] =
      some ((∑ j ∈ Finset.range 30, closes.getD (i - 29 + j) 0) / 30) := by
  simp only [calculate_ma30, rollingMean, List.getElem_map, List.getElem_range]
  rw [show min (i + 1) 30 = 30 by omega, if_neg (by omega),
    show i + 1 - 30 = i - 29 by omega]
  norm_num

theorem sum_window_shift (closes : List ℚ) (a : ℕ) :
    ∑ j ∈ Finset.range 30, closes.getD (a + 1 + j) 0 =
      (∑ j ∈ Finset.range 30, closes.getD (a + j) 0) +
        closes.getD (a + 30) 0 - closes.getD a 0 := by
  have h1 : ∑ j ∈ Finset.range 30, closes.getD (a + 1 + j) 0 =
      (∑ j ∈ Finset.range 29, closes.getD (a + 1 + j) 0) +
        closes.getD (a + 30) 0 := by
    rw [show (30 : ℕ) = 29 + 1 from rfl, Finset.sum_range_succ]
  have h2 : ∑ j ∈ Finset.range 30, closes.getD (a + j) 0 =
      (∑ j ∈ Finset.range 29, closes.getD (a + 1 + j) 0) +
        closes.getD a 0 := by
    rw [show (30 : ℕ) = 29 + 1 from rfl, Finset.sum_range_succ']
    exact congrArg (· + closes.getD a 0)
      (Finset.sum_congr rfl (fun j _ => by congr 1; omega))
  rw [h1, h2]
  ring

theorem getD_lt_getD (closes : List ℚ) (hm : List.Pairwise (· < ·) closes)
    (i j : ℕ) (hij : i < j) (hj : j < closes.length) :
    closes.getD i 0 < closes.getD j 0 := by
  rw [List.getD_eq_getElem closes 0 (lt_trans hij hj),
    List.getD_eq_getElem closes 0 hj]
  exact List.pairwise_iff_getElem.mp hm i j (lt_trans hij hj) hj hij

theorem wavg_lt_succ (closes : List ℚ) (h34 : 34 ≤ closes.length)
    (hm : List.Pairwise (· < ·) closes) (k : ℕ) (hk : k ≤ 3) :
    wavg closes k < wavg closes (k + 1) := by
  unfold wavg
  rw [div_lt_div_iff_of_pos_right (by norm_num : (0 : ℚ) < 30)]
  have hshift := sum_window_shift closes (closes.length - 34 + k)
  have hrw : ∀ j : ℕ, closes.length - 34 + (k + 1) + j =
      closes.length - 34 + k + 1 + j := fun j => by omega
  have hmain : ∑ j ∈ Finset.range 30,
      closes.getD (closes.length - 34 + (k + 1) + j) 0 =
      ∑ j ∈ Finset.range 30,
        closes.getD (closes.length - 34 + k + 1 + j) 0 :=
    Finset.sum_congr rfl (fun j _ => by rw [hrw j])
  rw [hmain, hshift]
  have := getD_lt_getD closes hm (closes.length - 34 + k)
    (closes.length - 34 + k + 30) (by omega) (by omega)
  linarith

theorem getD_gt_getD (closes : List ℚ) (hm : List.Pairwise (· > ·) closes)
    (i j : ℕ) (hij : i < j) (hj : j < closes.length) :
    closes.getD j 0 < closes.getD i 0 := by
  rw [List.getD_eq_getElem closes 0 (lt_trans hij hj),
    List.getD_eq_getElem closes 0 hj]
  exact List.pairwise_iff_getElem.mp hm i j (lt_trans hij hj) hj hij

theorem wavg_gt_succ (closes : List ℚ) (h34 : 34 ≤ closes.length)
    (hm : List.Pairwise (· > ·) closes) (k : ℕ) (hk : k ≤ 3) :
    wavg closes (k + 1) < wavg closes k := by
  unfold wavg
  rw [div_lt_div_iff_of_pos_right (by norm_num : (0 : ℚ) < 30)]
  have hshift := sum_window_shift closes (closes.length - 34 + k)
  have hrw : ∀ j : ℕ, closes.length - 34 + (k + 1) + j =
      closes.length - 34 + k + 1 + j := fun j => by omega
  have hmain : ∑ j ∈ Finset.range 30,
      closes.getD (closes.length - 34 + (k + 1) + j) 0 =
      ∑ j ∈ Finset.range 30,
        closes.getD (closes.length - 34 + k + 1 + j) 0 :=
    Finset.sum_congr rfl (fun j _ => by rw [hrw j])
  rw [hmain, hshift]
  have := getD_gt_getD closes hm (closes.length - 34 + k)
    (closes.length - 34 + k + 30) (by omega) (by omega)
  linarith

theorem wavg_pos (closes : List ℚ) (h34 : 34 ≤ closes.length)
    (hpos : ∀ x ∈ closes, 0 < x) (k : ℕ) (hk : k ≤ 4) :
    0 < wavg closes k := by
  unfold wavg
  refine div_pos (Finset.sum_pos (fun j hj => ?_)
    ⟨0, Finset.mem_range.mpr (by norm_num)⟩) (by norm_num)
  have hjlt : j < 30 := Finset.mem_range.mp hj
  have hidx : closes.length - 34 + k + j < closes.length := by omega
  rw [List.getD_eq_getElem closes 0 hidx]
  exact hpos _ (closes.getElem_mem hidx)

theorem wavg_const (closes : List ℚ) (c : ℚ) (h34 : 34 ≤ closes.length)
    (hc : ∀ x ∈ closes, x = c) (k : ℕ) (hk : k ≤ 4) :
    wavg closes k = c := by
  unfold wavg
  rw [Finset.sum_congr rfl (fun j hj => ?_)]
  · rw [Finset.sum_const, Finset.card_range]
    ring
  · have hjlt : j < 30 := Finset.mem_range.mp hj
    have hidx : closes.length - 34 + k + j < closes.length := by omega
    rw [List.getD_eq_getElem closes 0 hidx]
    exact hc _ (closes.getElem_mem hidx)

theorem ma30_drop_last5 (closes : List ℚ) (h34 : 34 ≤ closes.length) :
    (calculate_ma30 closes).drop (closes.length - 5) =
      [some (wavg closes 0), some (wavg closes 1), some (wavg closes 2),
       some (wavg closes 3), some (wavg closes 4)] := by
  have hlen := ma30_length closes
  apply List.ext_getElem
  · simp [hlen]
    omega
  · intro k hk1 hk2
    rw [List.getElem_drop]
    have hidx : closes.length - 5 + k < (calculate_ma30 closes).length := by
      simp only [List.length_drop, hlen] at hk1
      omega
    rw [ma30_getElem_full closes _ (by omega) hidx]
    simp only [List.length_drop, hlen] at hk1
    simp only [List.length_cons, List.length_nil] at hk2
    interval_cases k <;>
      · simp only [wavg, List.getElem_cons_zero, List.getElem_cons_succ]
        exact congrArg some (congrArg (· / 30)
          (Finset.sum_congr rfl (fun j _ => by congr 1 <;> omega)))

theorem olsSlope_five (y0 y1 y2 y3 y4 : ℚ) :
    olsSlope [y0, y1, y2, y3, y4] = (2 * y4 + y3 - y1 - 2 * y0) / 10 := by
  simp only [olsSlope, List.length_cons, List.length_nil]
  norm_num [Finset.sum_range_succ]
  ring_nf

theorem lmean_five (y0 y1 y2 y3 y4 : ℚ) :
    lmean [y0, y1, y2, y3, y4] = (y0 + y1 + y2 + y3 + y4) / 5 := by
  simp [lmean]
  ring

/-- Under 34 or more bars the slope pipeline reduces to the regression
over the five full-window means at the end of the series. -/
theorem ma_slope_eq (closes : List ℚ) (h34 : 34 ≤ closes.length) :
    calculate_ma_slope (calculate_ma30 closes) =
      (2 * wavg closes 4 + wavg closes 3 - wavg closes 1 - 2 * wavg closes 0) /
          10 /
        ((wavg closes 0 + wavg closes 1 + wavg closes 2 + wavg closes 3 +
            wavg closes 4) / 5) := by
  have hlen := ma30_length closes
  rw [calculate_ma_slope, hlen, if_neg (by omega), ma30_drop_last5 closes h34]
  norm_num [List.filterMap_cons, olsSlope_five, lmean_five]

theorem direction_ne_down (s : ℚ) (hs : 0 < s) :
    get_ma_direction s ≠ "down" := by
  unfold get_ma_direction
  split_ifs with h1 h2
  · simp
  · linarith
  · simp

theorem direction_ne_up (s : ℚ) (hs : s < 0) :
    get_ma_direction s ≠ "up" := by
  unfold get_ma_direction
  split_ifs with h1 h2
  · linarith
  · simp
  · simp

theorem direction_zero_flat : get_ma_direction 0 = "flat" := by
  unfold get_ma_direction
  rw [if_neg (by norm_num), if_neg (by norm_num)]

/-- C6 (amended): on any series of at least 34 positive closes, a
strictly increasing series gives a strictly positive normalized slope,
so the direction is `up` or `flat` and never `down` (it is `up` only
when the slope clears the 0.02 threshold); a strictly decreasing series
gives a negative slope and never direction `up`; a constant series
gives slope exactly 0 and direction `flat`. -/
theorem c6_slope_sign (closes : List ℚ) (c : ℚ) (h34 : 34 ≤ closes.length)
    (hpos : ∀ x ∈ closes, 0 < x) :
    (List.Pairwise (· < ·) closes →
      0 < calculate_ma_slope (calculate_ma30 closes) ∧
        get_ma_direction (calculate_ma_slope (calculate_ma30 closes)) ≠
          "down") ∧
    (List.Pairwise (· > ·) closes →
      calculate_ma_slope (calculate_ma30 closes) < 0 ∧
        get_ma_direction (calculate_ma_slope (calculate_ma30 closes)) ≠
          "up") ∧
    ((∀ x ∈ closes, x = c) →
      calculate_ma_slope (calculate_ma30 closes) = 0 ∧
        get_ma_direction (calculate_ma_slope (calculate_ma30 closes)) =
          "flat") := by
  have hw0 := wavg_pos closes h34 hpos 0 (by norm_num)
  have hw1 := wavg_pos closes h34 hpos 1 (by norm_num)
  have hw2 := wavg_pos closes h34 hpos 2 (by norm_num)
  have hw3 := wavg_pos closes h34 hpos 3 (by norm_num)
  have hw4 := wavg_pos closes h34 hpos 4 (by norm_num)
  rw [ma_slope_eq closes h34]
  refine ⟨fun hm => ?_, fun hm => ?_, fun hc => ?_⟩
  · have h01 := wavg_lt_succ closes h34 hm 0 (by norm_num)
    have h12 := wavg_lt_succ closes h34 hm 1 (by norm_num)
    have h23 := wavg_lt_succ closes h34 hm 2 (by norm_num)
    have h34w := wavg_lt_succ closes h34 hm 3 (by norm_num)
    have hslope : 0 < (2 * wavg closes 4 + wavg closes 3 - wavg closes 1 -
        2 * wavg closes 0) / 10 /
        ((wavg closes 0 + wavg closes 1 + wavg closes 2 + wavg closes 3 +
          wavg closes 4) / 5) :=
      div_pos (by linarith) (by linarith)
    exact ⟨hslope, direction_ne_down _ hslope⟩
  · have h01 := wavg_gt_succ closes h34 hm 0 (by norm_num)
    have h12 := wavg_gt_succ closes h34 hm 1 (by norm_num)
    have h23 := wavg_gt_succ closes h34 hm 2 (by norm_num)
    have h34w := wavg_gt_succ closes h34 hm 3 (by norm_num)
    have hslope : (2 * wavg closes 4 + wavg closes 3 - wavg closes 1 -
        2 * wavg closes 0) / 10 /
        ((wavg closes 0 + wavg closes 1 + wavg closes 2 + wavg closes 3 +
          wavg closes 4) / 5) < 0 :=
      div_neg_of_neg_of_pos (by linarith) (by linarith)
    exact ⟨hslope, direction_ne_up _ hslope⟩
  · have e0 := wavg_const closes c h34 hc 0 (by norm_num)
    have e1 := wavg_const closes c h34 hc 1 (by norm_num)
    have e2 := wavg_const closes c h34 hc 2 (by norm_num)
    have e3 := wavg_const closes c h34 hc 3 (by norm_num)
    have e4 := wavg_const closes c h34 hc 4 (by norm_num)
    have hz : (2 * wavg closes 4 + wavg closes 3 - wavg closes 1 -
        2 * wavg closes 0) / 10 /
        ((wavg closes 0 + wavg closes 1 + wavg closes 2 + wavg closes 3 +
          wavg closes 4) / 5) = 0 := by
      rw [e0, e1, e2, e3, e4]
      rw [show 2 * c + c - c - 2 * c = 0 from by ring]
      simp
    rw [hz]
    exact ⟨rfl, direction_zero_flat⟩

theorem incCloses_length : incCloses.length = 34 := by
  simp [incCloses]

theorem wavg_incCloses (k : ℕ) (hk : k ≤ 4) :
    wavg incCloses k = 2000029 / 2 + k := by
  unfold wavg
  rw [incCloses_length]
  have hterm : ∀ j ∈ Finset.range 30,
      incCloses.getD (34 - 34 + k + j) 0 = 1000000 + (k : ℚ) + (j : ℚ) := by
    intro j hj
    have hj30 : j < 30 := Finset.mem_range.mp hj
    have hidx : 34 - 34 + k + j < incCloses.length := by
      rw [incCloses_length]
      omega
    rw [List.getD_eq_getElem incCloses 0 hidx]
    simp only [incCloses, List.getElem_map, List.getElem_range]
    push_cast
    ring
  rw [Finset.sum_congr rfl hterm]
  have hsum : ∑ j ∈ Finset.range 30, ((1000000 : ℚ) + k + j) =
      30 * ((1000000 : ℚ) + k) + 435 := by
    rw [Finset.sum_add_distrib, Finset.sum_const, Finset.card_range]
    have hs : ∑ j ∈ Finset.range 30, (j : ℚ) = 435 := by
      norm_num [Finset.sum_range_succ]
    rw [hs]
    ring
  rw [hsum]
  ring

theorem incCloses_slope :
    calculate_ma_slope (calculate_ma30 incCloses) = 2 / 2000033 := by
  have h34 : 34 ≤ incCloses.length := by rw [incCloses_length]
  rw [ma_slope_eq incCloses h34,
    wavg_incCloses 0 (by norm_num), wavg_incCloses 1 (by norm_num),
    wavg_incCloses 2 (by norm_num), wavg_incCloses 3 (by norm_num),
    wavg_incCloses 4 (by norm_num)]
  norm_num

theorem incCloses_pos : ∀ x ∈ incCloses, 0 < x := by
  intro x hx
  simp only [incCloses, List.mem_map, List.mem_range] at hx
  obtain ⟨i, hi, rfl⟩ := hx
  positivity

/-- C6 counterexample: `incCloses` is strictly increasing, positive and
long enough for the last five moving-average values to be defined, yet
the composed pipeline returns direction `flat`, not `up` — the rise is
real but too small relative to the price level to clear the 0.02
threshold. -/
theorem c6_counterexample :
    List.Pairwise (· < ·) incCloses ∧ (∀ x ∈ incCloses, 0 < x) ∧
      34 ≤ incCloses.length ∧
      get_ma_direction (calculate_ma_slope (calculate_ma30 incCloses)) =
        "flat" ∧
      get_ma_direction (calculate_ma_slope (calculate_ma30 incCloses)) ≠
        "up" := by
  refine ⟨?_, incCloses_pos, by rw [incCloses_length], ?_, ?_⟩
  · simp only [incCloses]
    refine List.Pairwise.map _ ?_ (List.pairwise_lt_range 34)
    intro a b hab
    have hcast : (a : ℚ) < b := by exact_mod_cast hab
    linarith
  · rw [incCloses_slope]
    simp only [get_ma_direction]
    rw [if_neg (by norm_num), if_neg (by norm_num)]
  · rw [incCloses_slope]
    simp only [get_ma_direction]
    rw [if_neg (by norm_num), if_neg (by norm_num)]
    simp

theorem c6_witness :
    34 ≤ incCloses.length ∧ (∀ x ∈ incCloses, 0 < x) ∧
      ((List.Pairwise (· < ·) incCloses →
        0 < calculate_ma_slope (calculate_ma30 incCloses) ∧
          get_ma_direction (calculate_ma_slope (calculate_ma30 incCloses)) ≠
            "down") ∧
      (List.Pairwise (· > ·) incCloses →
        calculate_ma_slope (calculate_ma30 incCloses) < 0 ∧
          get_ma_direction (calculate_ma_slope (calculate_ma30 incCloses)) ≠
            "up") ∧
      ((∀ x ∈ incCloses, x = 1) →
        calculate_ma_slope (calculate_ma30 incCloses) = 0 ∧
          get_ma_direction (calculate_ma_slope (calculate_ma30 incCloses)) =
            "flat")) :=
  ⟨by rw [incCloses_length], incCloses_pos,
    c6_slope_sign incCloses 1 (by rw [incCloses_length]) incCloses_pos⟩

end StockMA30
